import Mathlib

/-!
Verification of the PyPI benign-package download pipeline
(`Fetch_benign_packages/bengin_simply_download.py` and
`Preprocess_packages/process_benign.py`) against its specification.

The network and the filesystem are modelled explicitly: an oracle value
describes the responses the process would observe, and the filesystem and
the in-memory downloaded set are threaded as explicit state.  Every
definition mirrors the corresponding Python function; machine strings are
Lean strings operated on through structural helpers so that all
definitions evaluate inside the kernel.
-/

/-! ## String helpers mirroring the Python primitives used by the code -/

/-- Lower-casing of a string, mirroring Python str.lower on ASCII names. -/
def lowerStr (s : String) : String := ⟨s.data.map Char.toLower⟩

/-- Mirrors str.startswith. -/
def strStartsWith (s pat : String) : Bool := pat.data.isPrefixOf s.data

/-- Mirrors str.endswith. -/
def strEndsWith (s pat : String) : Bool := pat.data.isSuffixOf s.data

/-- Mirrors os.path.basename: the part of the path after the last slash. -/
def basenameAux : List Char → List Char → List Char
  | [], acc => acc
  | c :: cs, acc =>
    if c = '/' then basenameAux cs [] else basenameAux cs (acc ++ [c])

/-- Mirrors os.path.basename. -/
def basename (s : String) : String := ⟨basenameAux s.data []⟩

/-- One step of non-overlapping left-to-right replacement; the fuel is at
least the length of the text, so it never runs out for nonempty patterns. -/
def replaceAux (pat rep : List Char) : Nat → List Char → List Char
  | _, [] => []
  | 0, l => l
  | fuel + 1, c :: cs =>
    if pat ≠ [] ∧ pat.isPrefixOf (c :: cs) then
      rep ++ replaceAux pat rep fuel ((c :: cs).drop pat.length)
    else
      c :: replaceAux pat rep fuel cs

/-- Mirrors str.replace (all non-overlapping occurrences, left to right). -/
def strReplace (s pat rep : String) : String :=
  ⟨replaceAux pat.data rep.data s.data.length s.data⟩

/-- Mirrors str.split on a single separator character (Python semantics:
splitting the empty string yields one empty field). -/
def splitOnCharAux (sep : Char) : List Char → List Char → List (List Char)
  | [], acc => [acc.reverse]
  | c :: cs, acc =>
    if c = sep then acc.reverse :: splitOnCharAux sep cs []
    else splitOnCharAux sep cs (c :: acc)

/-- Mirrors str.split with a one-character separator. -/
def splitOnChar (sep : Char) (s : String) : List String :=
  (splitOnCharAux sep s.data []).map fun l => ⟨l⟩

/-- Index of the last dot of a filename, if any. -/
def lastDotIdx : List Char → Option Nat
  | [] => none
  | c :: cs =>
    match lastDotIdx cs with
    | some i => some (i + 1)
    | none => if c = '.' then some 0 else none

/-- Mirrors pathlib Path.suffix on a file name: the substring from the last
dot, provided that dot is neither the first nor the last character;
otherwise the empty string. -/
def pathSuffix (s : String) : String :=
  match lastDotIdx s.data with
  | none => ""
  | some i => if 0 < i ∧ i + 1 < s.data.length then ⟨s.data.drop i⟩ else ""

/-! ## Data model

`FetchResult` mirrors the result dictionaries produced by
`PyPIDownloader.download_package` and `download_all_packages`; absent
dictionary keys are `none`. -/

structure FetchResult where
  name : String
  status : String
  reason : Option String := none
  filename : Option String := none
  size : Option Nat := none
  url : Option String := none
deriving DecidableEq

/-- One entry of a `releases[version]` list of the PyPI JSON document:
the fields the code reads. -/
structure ReleaseFile where
  packagetype : String
  url : String
deriving DecidableEq

/-- The part of a parsed PyPI JSON metadata document the code reads:
`info.version` and the `releases` mapping. -/
structure JsonMeta where
  version : String
  releases : List (String × List ReleaseFile)
deriving DecidableEq

/-- An HTTP response to the JSON metadata request: status code and, when
the body parses as JSON with the expected keys, the parsed document.
`body = none` models a malformed document (`response.json()` or the key
accesses raise). -/
structure JsonResp where
  status : Nat
  body : Option JsonMeta
deriving DecidableEq

/-- An HTTP response to the simple file-listing request: status code and
the anchor href values appearing in the page text, in document order. -/
structure SimpleResp where
  status : Nat
  hrefs : List String
deriving DecidableEq

/-- The outcome of one `requests.get` call: a response, or an exception.
`timeoutExn` is `requests.exceptions.Timeout`, a subclass of
`RequestException`; `requestExn` is any other `RequestException`;
`otherExn` is any other exception. -/
inductive ReqOutcome (α : Type) where
  | ok (resp : α)
  | timeoutExn
  | requestExn
  | otherExn (msg : String)
deriving DecidableEq

/-- Exceptions as data, for the bodies of the try blocks. -/
inductive PyExn where
  | requestException
  | timeout
  | other (msg : String)
deriving DecidableEq

/-! ## MirrorClient: `get_package_info_from_json` (lines 73–114) -/

/-- Python dict membership plus indexing `releases[latest_version]`,
as used on lines 93–94. -/
def lookupRelease (v : String) : List (String × List ReleaseFile) → Option (List ReleaseFile)
  | [] => none
  | (k, files) :: rest => if k = v then some files else lookupRelease v rest

/-- The artifact-type selection of lines 95–104: prefer the first listed
source distribution, otherwise the first listed wheel, otherwise nothing. -/
def selectReleaseFile (files : List ReleaseFile) : Option String :=
  if files.isEmpty then none
  else
    match files.filter (fun f => f.packagetype == "sdist") with
    | f :: _ => some f.url
    | [] =>
      match files.filter (fun f => f.packagetype == "bdist_wheel") with
      | f :: _ => some f.url
      | [] => none

/-- The body of `get_package_info_from_json` before its except clauses:
a 404 returns `None`; any other 4xx/5xx status raises through
`raise_for_status`; a malformed body raises; otherwise the release list of
the latest version is searched. -/
def getPackageInfoFromJsonE (j : ReqOutcome JsonResp) : Except PyExn (Option String) :=
  match j with
  | .timeoutExn => .error .requestException
  | .requestExn => .error .requestException
  | .otherExn msg => .error (.other msg)
  | .ok resp =>
    if resp.status = 404 then .ok none
    else if 400 ≤ resp.status then .error .requestException
    else
      match resp.body with
      | none => .error (.other "malformed json")
      | some data =>
        match lookupRelease data.version data.releases with
        | some files => .ok (selectReleaseFile files)
        | none => .ok none

/-- The two except clauses of `get_package_info_from_json` both return
`None`, so every internal exception reduces to no result. -/
def getPackageInfoFromJson (j : ReqOutcome JsonResp) : Option String :=
  match getPackageInfoFromJsonE j with
  | .ok v => v
  | .error _ => none

/-! ## MirrorClient: `get_package_download_url_fallback` (lines 116–149) -/

/-- The candidate links the regex of line 130 extracts from the page:
hrefs ending in one of the three archive suffixes. -/
def fallbackLinks (hrefs : List String) : List String :=
  hrefs.filter fun h =>
    strEndsWith h ".tar.gz" || strEndsWith h ".zip" || strEndsWith h ".whl"

/-- The body of `get_package_download_url_fallback` before its except
clause (lines 120–145). -/
def getPackageDownloadUrlFallbackE (s : ReqOutcome SimpleResp) : Except PyExn (Option String) :=
  match s with
  | .timeoutExn => .error .timeout
  | .requestExn => .error .requestException
  | .otherExn msg => .error (.other msg)
  | .ok resp =>
    if resp.status = 404 then .ok none
    else if 400 ≤ resp.status then .error .requestException
    else
      let links := fallbackLinks resp.hrefs
      if links.isEmpty then .ok none
      else
        match links.filter (fun l => strEndsWith l ".tar.gz" || strEndsWith l ".zip") with
        | l :: _ => .ok (some l)
        | [] =>
          match links.filter (fun l => strEndsWith l ".whl") with
          | l :: _ => .ok (some l)
          | [] => .ok none

/-- The single generic except clause of the fallback (line 147) returns
`None` for every exception. -/
def getPackageDownloadUrlFallback (s : ReqOutcome SimpleResp) : Option String :=
  match getPackageDownloadUrlFallbackE s with
  | .ok v => v
  | .error _ => none

/-! ## MirrorClient: `get_package_download_url` (lines 151–167) -/

/-- Python truthiness of the returned URL value: `None` and the empty
string are falsy. -/
def pyTruthy : Option String → Bool
  | none => false
  | some s => s != ""

/-- `get_package_download_url`, instrumented with a flag recording whether
the fallback strategy was consulted. -/
def getPackageDownloadUrlInstr (j : ReqOutcome JsonResp) (s : ReqOutcome SimpleResp) :
    Option String × Bool :=
  let url := getPackageInfoFromJson j
  if pyTruthy url then (url, false)
  else
    let url2 := getPackageDownloadUrlFallback s
    if pyTruthy url2 then (url2, true) else (none, true)

/-- `get_package_download_url`: the JSON strategy first, then the simple
page fallback, then no result. -/
def getPackageDownloadUrl (j : ReqOutcome JsonResp) (s : ReqOutcome SimpleResp) :
    Option String :=
  (getPackageDownloadUrlInstr j s).1

/-! ## DownloadedSetIndex: `extract_package_name` and
`load_existing_packages` (lines 47–71) -/

/-- `extract_package_name`: strip the three archive suffixes anywhere in
the name, split on the dash, lower-case the first field. -/
def extractPackageName (filename : String) : Option String :=
  let name := strReplace (strReplace (strReplace filename ".tar.gz" "") ".whl" "") ".zip" ""
  match splitOnChar '-' name with
  | p :: _ => some (lowerStr p)
  | [] => none

/-- One directory listing entry, as `output_dir.iterdir()` yields it. -/
structure DirEntry where
  name : String
  isFile : Bool
deriving DecidableEq

/-- The loop body of `load_existing_packages` for one directory entry. -/
def loadStep (acc : List String) (item : DirEntry) : List String :=
  if item.isFile = true ∧ pathSuffix item.name ∈ [".whl", ".tar.gz", ".zip"] then
    match extractPackageName item.name with
    | some p => if p = "" then acc else acc.insert (lowerStr p)
    | none => acc
  else acc

/-- `load_existing_packages`: for every regular file whose `Path.suffix`
is literally one of `.whl`, `.tar.gz`, `.zip`, insert the truthy extracted
key, lower-cased, into the downloaded set. -/
def loadExistingPackages (entries : List DirEntry) : List String :=
  entries.foldl loadStep []

/-! ## FetchWorker: `download_package` (lines 169–243) -/

/-- URL normalization of lines 186–189: root-relative URLs are prefixed
with the registry host, other non-absolute URLs with the file host. -/
def normalizeUrl (u : String) : String :=
  if strStartsWith u "/" then "https://pypi.org" ++ u
  else if !(strStartsWith u "http://" || strStartsWith u "https://") then
    "https://files.pythonhosted.org" ++ u
  else u

/-- The response to the artifact download request: the declared
content-length header (absent when the server sends none) and the body
chunks delivered by `iter_content`. -/
structure DlResp where
  status : Nat
  contentLength : Option Nat
  chunks : List (List Nat)
deriving DecidableEq

/-- The bytes the write loop of lines 208–213 puts in the file: every
truthy (nonempty) chunk appended in order. -/
def writeChunks (chunks : List (List Nat)) : List Nat :=
  (chunks.filter (fun c => !c.isEmpty)).flatten

/-- The filesystem of the output directory: filename to byte content. -/
abbrev Fs : Type := List (String × List Nat)

/-- Mirrors `open(filepath, "wb")` followed by the write loop: any existing
file at that path is truncated and replaced. -/
def fsWrite (fs : Fs) (name : String) (content : List Nat) : Fs :=
  (fs.filter fun p => p.1 ≠ name) ++ [(name, content)]

/-- Mirrors `filepath.unlink(missing_ok=True)`. -/
def fsRemove (fs : Fs) (name : String) : Fs :=
  fs.filter fun p => p.1 ≠ name

/-- Reading a file back, as `filepath.stat()` or a later consumer would. -/
def fsLookup : Fs → String → Option (List Nat)
  | [], _ => none
  | (n, c) :: rest, f => if n = f then some c else fsLookup rest f

/-- The mutable state of one `PyPIDownloader`: the in-memory
`downloaded_packages` set (lower-cased keys) and the output directory. -/
structure DState where
  downloadedPackages : List String
  files : Fs
deriving DecidableEq

/-- The network behaviour one `download_package` call observes: the JSON
metadata response, the simple-page response, and the artifact download
outcome. -/
structure PkgOracle where
  jsonResp : ReqOutcome JsonResp
  simpleResp : ReqOutcome SimpleResp
  dl : ReqOutcome DlResp

/-- `download_package`: skip check, resolve, normalize, stream to file,
verify the byte count, update the downloaded set.  The except clauses of
lines 235–243 map a timeout to `failed/timeout`, any other
`RequestException` (including the one `raise_for_status` raises for a
4xx/5xx download status) to `failed/network_error`, and any other
exception to `failed` with the exception text as reason. -/
def downloadPackage (o : PkgOracle) (packageName : String) (st : DState) :
    FetchResult × DState :=
  if lowerStr packageName ∈ st.downloadedPackages then
    ({ name := packageName, status := "skipped", reason := some "already_downloaded" }, st)
  else
    match getPackageDownloadUrl o.jsonResp o.simpleResp with
    | none =>
      ({ name := packageName, status := "failed", reason := some "no_download_url" }, st)
    | some url0 =>
      let downloadUrl := normalizeUrl url0
      let filename := basename downloadUrl
      match o.dl with
      | .timeoutExn =>
        ({ name := packageName, status := "failed", reason := some "timeout" }, st)
      | .requestExn =>
        ({ name := packageName, status := "failed", reason := some "network_error" }, st)
      | .otherExn msg =>
        ({ name := packageName, status := "failed", reason := some msg }, st)
      | .ok resp =>
        if 400 ≤ resp.status then
          ({ name := packageName, status := "failed", reason := some "network_error" }, st)
        else
          let totalSize := resp.contentLength.getD 0
          let content := writeChunks resp.chunks
          let files1 := fsWrite st.files filename content
          if 0 < totalSize ∧ content.length ≠ totalSize then
            ({ name := packageName, status := "failed", reason := some "incomplete_download" },
             { st with files := fsRemove files1 filename })
          else
            ({ name := packageName, status := "success", filename := some filename,
               size := some content.length, url := some downloadUrl },
             { downloadedPackages := st.downloadedPackages.insert (lowerStr packageName),
               files := files1 })

/-! ## ConcurrencyCoordinator: `download_all_packages` (lines 266–310)

One future is submitted per input name; `as_completed` yields every future
exactly once, in an arbitrary completion order; `future.result(timeout=300)`
either delivers the result of `download_package` or raises, in which case
the coordinator appends a `failed/processing_error` result for the name the
future was mapped to. -/

/-- The result the coordinator records for an item whose future raised or
exceeded its deadline (lines 302–308). -/
def processingErrorResult (name : String) : FetchResult :=
  { name := name, status := "failed", reason := some "processing_error" }

/-- `download_all_packages` over an abstract schedule: `outcome i` is the
value of `future.result` for the i-th submitted name (`none` when it
raises or times out), and `completionOrder` is the order `as_completed`
yields the futures, a permutation of the submission indices. -/
def downloadAllPackages (packageList : List String) (outcome : Nat → Option FetchResult)
    (completionOrder : List Nat) : List FetchResult :=
  completionOrder.map fun i =>
    match outcome i with
    | some r => r
    | none => processingErrorResult (packageList.getD i "")

/-! ## RunReport: `generate_statistics` (lines 312–332) -/

/-- The statistics dictionary; the three derived ratios are exact
rationals (the Python arithmetic computes each of them from the integer
counts and the integer total size alone). -/
structure RunStats where
  total : Nat
  successful : Nat
  skipped : Nat
  failed : Nat
  successRate : ℚ
  totalSizeMb : ℚ
  averageSizeMb : ℚ
deriving DecidableEq

/-- `generate_statistics`: filter by status, count, sum the sizes of the
successful results (`r.get("size", 0)`), derive the ratios. -/
def generateStatistics (results : List FetchResult) : RunStats :=
  let successful := results.filter fun r => r.status == "success"
  let skipped := results.filter fun r => r.status == "skipped"
  let failed := results.filter fun r => r.status == "failed"
  let totalSize : Nat := (successful.map fun r => r.size.getD 0).sum
  { total := results.length
    successful := successful.length
    skipped := skipped.length
    failed := failed.length
    successRate :=
      if results.isEmpty then 0 else ((successful.length : ℚ) / (results.length : ℚ)) * 100
    totalSizeMb := (totalSize : ℚ) / 1024 / 1024
    averageSizeMb :=
      if successful.isEmpty then 0 else ((totalSize : ℚ) / (successful.length : ℚ)) / 1024 / 1024 }

/-! ## RetryCoordinator: `retry_failed_downloads`
(`Preprocess_packages/process_benign.py`, lines 227–278)

Each round walks the currently failing list in order and classifies every
package as retried-successfully or still failing; `attempt k p` tells
whether the resolve-select-download chain for package `p` succeeds in
round `k` (every exception inside the loop is caught and counts as still
failing). -/

/-- The inner loop body of one retry round applied from round `k` for `n`
rounds: the packages still failing afterwards. -/
def applyRounds (attempt : Nat → String → Bool) : Nat → Nat → List String → List String
  | _, 0, fs => fs
  | k, n + 1, fs => applyRounds attempt (k + 1) n (fs.filter fun p => !(attempt k p))

/-- The still-failing list after the first `k` retry rounds, starting from
the initially failed list. -/
def stillFailedAfter (attempt : Nat → String → Bool) (initial : List String) (k : Nat) :
    List String :=
  applyRounds attempt 0 k initial

/-- The `for retry in range(max_retries)` loop of lines 238–276, with the
two break conditions of line 272; the fuel counts the remaining
iterations. -/
def retryGo (attempt : Nat → String → Bool) (maxRetries : Nat) :
    Nat → List String → List String → List String × List String
  | 0, succAcc, failedAcc => (succAcc, failedAcc)
  | fuel + 1, succAcc, failedAcc =>
    let retry := maxRetries - (fuel + 1)
    let retrySuccessful := failedAcc.filter fun p => attempt retry p
    let stillFailed := failedAcc.filter fun p => !(attempt retry p)
    if stillFailed.isEmpty || fuel = 0 then (succAcc ++ retrySuccessful, stillFailed)
    else retryGo attempt maxRetries fuel (succAcc ++ retrySuccessful) stillFailed

/-- `retry_failed_downloads`: empty input returns two empty lists at once;
otherwise the round loop runs with `max_retries` iterations available. -/
def retryFailedDownloads (attempt : Nat → String → Bool) (failedPackages : List String)
    (maxRetries : Nat) : List String × List String :=
  if failedPackages.isEmpty then ([], [])
  else retryGo attempt maxRetries maxRetries [] failedPackages

/-! ## Shared lemmas -/

theorem perm_isEmpty_eq {α : Type} {l₁ l₂ : List α} (h : l₁.Perm l₂) :
    l₁.isEmpty = l₂.isEmpty := by
  rcases l₁ with _ | ⟨a, t⟩ <;> rcases l₂ with _ | ⟨b, u⟩
  · rfl
  · exfalso; simpa using h.length_eq
  · exfalso; simpa using h.length_eq
  · rfl

theorem filter_head_mem {α : Type} {p : α → Bool} {l : List α} {f : α} {t : List α}
    (h : l.filter p = f :: t) : f ∈ l ∧ p f = true := by
  have hf : f ∈ l.filter p := by rw [h]; exact List.mem_cons_self f t
  exact List.mem_filter.mp hf

theorem fsLookup_fsWrite (fs : Fs) (n : String) (c : List Nat) :
    fsLookup (fsWrite fs n c) n = some c := by
  induction fs with
  | nil => simp [fsWrite, fsLookup]
  | cons p t ih =>
    by_cases hp : p.1 = n
    · simpa [fsWrite, List.filter, hp] using ih
    · simpa [fsWrite, List.filter, hp, fsLookup] using ih

theorem fsLookup_fsRemove (fs : Fs) (n : String) :
    fsLookup (fsRemove fs n) n = none := by
  induction fs with
  | nil => rfl
  | cons p t ih =>
    by_cases hp : p.1 = n
    · simpa [fsRemove, List.filter, hp] using ih
    · simpa [fsRemove, List.filter, hp, fsLookup] using ih

theorem fsWrite_filter_length (fs : Fs) (n : String) (c : List Nat) :
    ((fsWrite fs n c).filter fun p => p.1 == n).length = 1 := by
  have hnil : ((fs.filter fun p => p.1 ≠ n).filter fun p => p.1 == n) = [] := by
    rw [List.filter_eq_nil_iff]
    intro a ha
    have := (List.mem_filter.mp ha).2
    simp only [decide_eq_true_eq] at this
    simp [this]
  simp [fsWrite, List.filter_append, hnil]

theorem lookupRelease_mem {v : String} {rel : List (String × List ReleaseFile)}
    {files : List ReleaseFile} (h : lookupRelease v rel = some files) :
    ∃ k, (k, files) ∈ rel := by
  induction rel with
  | nil => exact absurd h (by simp [lookupRelease])
  | cons e rest ih =>
    by_cases he : e.1 = v
    · refine ⟨e.1, ?_⟩
      have : some e.2 = some files := by simpa [lookupRelease, he] using h
      simp only [Option.some.injEq] at this
      rw [← this]
      exact List.mem_cons_self e rest
    · obtain ⟨k, hk⟩ := ih (by simpa [lookupRelease, he] using h)
      exact ⟨k, List.mem_cons_of_mem e hk⟩

theorem selectReleaseFile_mem {files : List ReleaseFile} {u : String}
    (h : selectReleaseFile files = some u) : ∃ f ∈ files, f.url = u := by
  by_cases he : files.isEmpty
  · simp [selectReleaseFile, he] at h
  · rcases h1 : files.filter (fun f => f.packagetype == "sdist") with _ | ⟨f, t⟩
    · rcases h2 : files.filter (fun f => f.packagetype == "bdist_wheel") with _ | ⟨g, s⟩
      · simp [selectReleaseFile, he, h1, h2] at h
      · have hu : u = g.url := by
          have := h
          simp [selectReleaseFile, he, h1, h2] at this
          exact this.symm
        exact ⟨g, (filter_head_mem h2).1, hu.symm⟩
    · have hu : u = f.url := by
        have := h
        simp [selectReleaseFile, he, h1] at this
        exact this.symm
      exact ⟨f, (filter_head_mem h1).1, hu.symm⟩

/-! ## Claim theorems -/

/-- C4: for every candidate release-file list, artifact selection prefers
the source-distribution type over the wheel type no matter how the two are
interleaved: when an sdist is present the result is the URL of the
first-listed sdist (in particular a source distribution is returned even
when wheels are also present); with no sdist but a wheel present the
result is the URL of the first-listed wheel; with neither type present the
selection yields none. -/
theorem selectReleaseFile_type_precedence (files : List ReleaseFile) :
    ((∃ f ∈ files, f.packagetype = "sdist") →
      selectReleaseFile files =
        ((files.filter fun f => f.packagetype == "sdist").head?.map ReleaseFile.url) ∧
      ∃ f ∈ files, f.packagetype = "sdist" ∧ selectReleaseFile files = some f.url) ∧
    ((∀ f ∈ files, f.packagetype ≠ "sdist") → (∃ f ∈ files, f.packagetype = "bdist_wheel") →
      selectReleaseFile files =
        ((files.filter fun f => f.packagetype == "bdist_wheel").head?.map ReleaseFile.url)) ∧
    ((∀ f ∈ files, f.packagetype ≠ "sdist") → (∀ f ∈ files, f.packagetype ≠ "bdist_wheel") →
      selectReleaseFile files = none) := by
  refine ⟨?_, ?_, ?_⟩
  · rintro ⟨g, hg, hgt⟩
    have hne : files.isEmpty = false :=
      List.isEmpty_eq_false.mpr (by rintro rfl; exact absurd hg (List.not_mem_nil g))
    rcases h1 : files.filter (fun f => f.packagetype == "sdist") with _ | ⟨f, t⟩
    · exact absurd (beq_iff_eq.mpr hgt) (by simpa using List.filter_eq_nil_iff.mp h1 g hg)
    · have hmem := filter_head_mem h1
      refine ⟨by simp [selectReleaseFile, hne, h1], f, hmem.1, beq_iff_eq.mp hmem.2,
        by simp [selectReleaseFile, hne, h1]⟩
  · rintro hno ⟨g, hg, hgt⟩
    have hne : files.isEmpty = false :=
      List.isEmpty_eq_false.mpr (by rintro rfl; exact absurd hg (List.not_mem_nil g))
    have h1 : files.filter (fun f => f.packagetype == "sdist") = [] :=
      List.filter_eq_nil_iff.mpr fun a ha => by simpa using hno a ha
    rcases h2 : files.filter (fun f => f.packagetype == "bdist_wheel") with _ | ⟨f, t⟩
    · exact absurd (beq_iff_eq.mpr hgt) (by simpa using List.filter_eq_nil_iff.mp h2 g hg)
    · simp [selectReleaseFile, hne, h1, h2]
  · intro hno hnw
    rcases files with _ | ⟨f, t⟩
    · rfl
    · have h1 : (f :: t).filter (fun f => f.packagetype == "sdist") = [] :=
        List.filter_eq_nil_iff.mpr fun a ha => by simpa using hno a ha
      have h2 : (f :: t).filter (fun f => f.packagetype == "bdist_wheel") = [] :=
        List.filter_eq_nil_iff.mpr fun a ha => by simpa using hnw a ha
      simp [selectReleaseFile, h1, h2]

/-- C4 witness: on a list holding a wheel first and an sdist second, the
selection returns the sdist URL. -/
theorem selectReleaseFile_type_precedence_witness :
    selectReleaseFile
      [⟨"bdist_wheel", "https://h/w-1.0.whl"⟩, ⟨"sdist", "https://h/w-1.0.tar.gz"⟩] =
      some "https://h/w-1.0.tar.gz" := by
  have h :=
    (selectReleaseFile_type_precedence
      [⟨"bdist_wheel", "https://h/w-1.0.whl"⟩, ⟨"sdist", "https://h/w-1.0.tar.gz"⟩]).1
      ⟨⟨"sdist", "https://h/w-1.0.tar.gz"⟩, by decide, rfl⟩
  exact h.1.trans (by decide)

/-- C9: `generate_statistics` is order-independent: permuting the results
list leaves every computed statistic (total, successful, skipped, failed,
success rate, total size, average size) unchanged. -/
theorem generateStatistics_perm_invariant (l₁ l₂ : List FetchResult) (h : l₁.Perm l₂) :
    generateStatistics l₁ = generateStatistics l₂ := by
  have hlen := h.length_eq
  have hsucc := h.filter (fun r => r.status == "success")
  have hskip := h.filter (fun r => r.status == "skipped")
  have hfail := h.filter (fun r => r.status == "failed")
  have hsum : ((l₁.filter fun r => r.status == "success").map fun r => r.size.getD 0).sum =
      ((l₂.filter fun r => r.status == "success").map fun r => r.size.getD 0).sum :=
    (hsucc.map fun r => r.size.getD 0).sum_eq
  have hemp := perm_isEmpty_eq h
  have hemps := perm_isEmpty_eq hsucc
  simp only [generateStatistics]
  rw [hlen, hsucc.length_eq, hskip.length_eq, hfail.length_eq, hsum, hemp, hemps]

/-- C9 witness: swapping two concrete results leaves the statistics
unchanged. -/
theorem generateStatistics_perm_invariant_witness :
    generateStatistics
      [{ name := "a", status := "success", size := some 1024 },
       { name := "b", status := "failed", reason := some "timeout" }] =
    generateStatistics
      [{ name := "b", status := "failed", reason := some "timeout" },
       { name := "a", status := "success", size := some 1024 }] :=
  generateStatistics_perm_invariant _ _ (by decide)

/-! ## Retry-round lemmas -/

theorem applyRounds_nil (attempt : Nat → String → Bool) (k n : Nat) :
    applyRounds attempt k n [] = [] := by
  induction n generalizing k with
  | zero => rfl
  | succ n ih => simp [applyRounds, ih]

theorem applyRounds_succ_last (attempt : Nat → String → Bool) (k n : Nat) (fs : List String) :
    applyRounds attempt k (n + 1) fs =
      (applyRounds attempt k n fs).filter fun p => !(attempt (k + n) p) := by
  induction n generalizing k fs with
  | zero => simp [applyRounds]
  | succ n ih =>
    rw [applyRounds, ih, applyRounds]
    have harith : k + 1 + n = k + (n + 1) := by omega
    rw [harith]

theorem retryGo_snd_eq (attempt : Nat → String → Bool) (maxRetries : Nat) :
    ∀ fuel succAcc fs, 0 < fuel → fuel ≤ maxRetries →
      (retryGo attempt maxRetries fuel succAcc fs).2 =
        applyRounds attempt (maxRetries - fuel) fuel fs := by
  intro fuel
  induction fuel with
  | zero => intro _ _ h; exact absurd h (lt_irrefl 0)
  | succ f ih =>
    intro succAcc fs _ hle
    rw [retryGo]
    by_cases hempty :
        (fs.filter fun p => !(attempt (maxRetries - (f + 1)) p)).isEmpty = true
    · rw [if_pos (by simp [hempty])]
      have hnil := List.isEmpty_iff.mp hempty
      rw [applyRounds, hnil, applyRounds_nil]
    · rcases Nat.eq_zero_or_pos f with hf | hf
      · subst hf
        rw [if_pos (by simp)]
        simp [applyRounds]
      · rw [if_neg (by simp [hempty, Nat.pos_iff_ne_zero.mp hf])]
        rw [ih _ _ hf (by omega), applyRounds]
        have harith : maxRetries - (f + 1) + 1 = maxRetries - f := by omega
        rw [harith]

theorem stillFailedAfter_mono_le (attempt : Nat → String → Bool) (initial : List String) :
    ∀ {j m : Nat}, j ≤ m →
      ∀ p ∈ stillFailedAfter attempt initial m, p ∈ stillFailedAfter attempt initial j := by
  intro j m hle
  induction hle with
  | refl => exact fun p hp => hp
  | step hnext ih =>
    intro p hp
    rw [stillFailedAfter, applyRounds_succ_last] at hp
    exact ih p (List.mem_filter.mp hp).1

/-- C3: retrying is monotone: the still-failing list after round k+1 is a
sublist-subset of the one after round k; a package that is submitted in
some round and succeeds there is absent from every later still-failing
list, so it is never resubmitted; and the failed list
`retry_failed_downloads` returns is exactly the still-failing list after
the last round, i.e. the remaining failures are terminal. -/
theorem retryFailedDownloads_monotone (attempt : Nat → String → Bool) (initial : List String) :
    (∀ k, ∀ p ∈ stillFailedAfter attempt initial (k + 1),
      p ∈ stillFailedAfter attempt initial k) ∧
    (∀ j p, p ∈ stillFailedAfter attempt initial j → attempt j p = true →
      ∀ m, j < m → p ∉ stillFailedAfter attempt initial m) ∧
    (∀ maxRetries, (retryFailedDownloads attempt initial maxRetries).2 =
      stillFailedAfter attempt initial maxRetries) := by
  refine ⟨?_, ?_, ?_⟩
  · intro k p hp
    rw [stillFailedAfter, applyRounds_succ_last] at hp
    exact (List.mem_filter.mp hp).1
  · intro j p hpj hsucc m hlt hpm
    have hpj1 : p ∉ stillFailedAfter attempt initial (j + 1) := by
      intro hmem
      rw [stillFailedAfter, applyRounds_succ_last] at hmem
      have := (List.mem_filter.mp hmem).2
      simp only [Nat.zero_add] at this
      rw [hsucc] at this
      exact absurd this (by decide)
    exact hpj1 (stillFailedAfter_mono_le attempt initial hlt p hpm)
  · intro maxRetries
    by_cases hemp : initial.isEmpty = true
    · have : initial = [] := List.isEmpty_iff.mp hemp
      subst this
      rw [retryFailedDownloads, if_pos (by decide), stillFailedAfter, applyRounds_nil]
    · rw [retryFailedDownloads, if_neg (by simp [hemp])]
      rcases Nat.eq_zero_or_pos maxRetries with h0 | hpos
      · subst h0
        rfl
      · rw [retryGo_snd_eq attempt maxRetries maxRetries [] initial hpos (le_refl _),
          Nat.sub_self, stillFailedAfter]

/-- C3 witness: with an attempt oracle that succeeds only for package a in
round 0, package a is gone from the still-failing list after two rounds,
and the failed list the retry loop returns equals the still-failing list
after its two rounds. -/
theorem retryFailedDownloads_monotone_witness :
    "a" ∉ stillFailedAfter (fun k p => decide (k = 0 ∧ p = "a")) ["a", "b"] 2 ∧
    (retryFailedDownloads (fun k p => decide (k = 0 ∧ p = "a")) ["a", "b"] 2).2 =
      stillFailedAfter (fun k p => decide (k = 0 ∧ p = "a")) ["a", "b"] 2 := by
  have h := retryFailedDownloads_monotone (fun k p => decide (k = 0 ∧ p = "a")) ["a", "b"]
  exact ⟨h.2.1 0 "a" (by decide) (by decide) 2 (by decide), h.2.2 2⟩

/-! ## Coordinator lemmas -/

theorem downloadPackage_name_eq (o : PkgOracle) (packageName : String) (st : DState) :
    (downloadPackage o packageName st).1.name = packageName := by
  rw [downloadPackage]
  split
  · rfl
  · split
    · rfl
    · split
      · rfl
      · rfl
      · rfl
      · dsimp only
        split
        · rfl
        · split
          · rfl
          · rfl

theorem map_getD_range (l : List String) (d : String) :
    (List.range l.length).map (fun i => l.getD i d) = l := by
  induction l with
  | nil => simp
  | cons a t ih =>
    rw [List.length_cons, List.range_succ_eq_map, List.map_cons, List.map_map,
      List.getD_cons_zero]
    have h2 : List.map ((fun i => (a :: t).getD i d) ∘ Nat.succ) (List.range t.length) = t := ih
    rw [h2]

/-- C1: for every input list, every per-item outcome assignment (a worker
future either yields its result or raises) and every completion order, the
coordinator produces exactly one terminal result per input name: the
result count equals the input count, the multiset of result names is
exactly the multiset of input names (no drops, no duplicates), and an item
whose future raised or timed out contributes a failed/processing_error
result. -/
theorem downloadAllPackages_one_result_per_input (packageList : List String)
    (outcome : Nat → Option FetchResult) (completionOrder : List Nat)
    (horder : completionOrder.Perm (List.range packageList.length))
    (hname : ∀ i r, outcome i = some r → r.name = packageList.getD i "") :
    (downloadAllPackages packageList outcome completionOrder).length = packageList.length ∧
    ((downloadAllPackages packageList outcome completionOrder).map FetchResult.name).Perm
      packageList ∧
    (∀ i ∈ completionOrder, outcome i = none →
      processingErrorResult (packageList.getD i "") ∈
        downloadAllPackages packageList outcome completionOrder) := by
  have hfun : ∀ i,
      (match outcome i with
       | some r => r
       | none => processingErrorResult (packageList.getD i "")).name = packageList.getD i "" := by
    intro i
    cases h : outcome i with
    | some r => exact hname i r h
    | none => rfl
  refine ⟨?_, ?_, ?_⟩
  · rw [downloadAllPackages, List.length_map, horder.length_eq, List.length_range]
  · rw [downloadAllPackages, List.map_map]
    have hmap : (FetchResult.name ∘ fun i =>
        match outcome i with
        | some r => r
        | none => processingErrorResult (packageList.getD i "")) =
        fun i => packageList.getD i "" := funext hfun
    rw [hmap]
    have hperm := horder.map fun i => packageList.getD i ""
    rw [map_getD_range packageList ""] at hperm
    exact hperm
  · intro i hi hnone
    rw [downloadAllPackages]
    refine List.mem_map.mpr ⟨i, hi, ?_⟩
    rw [hnone]

/-- C1 witness: two inputs whose futures both raise still produce two
results, whose names are a permutation of the inputs. -/
theorem downloadAllPackages_one_result_per_input_witness :
    (downloadAllPackages ["a", "b"] (fun _ => none) [1, 0]).length = 2 ∧
    ((downloadAllPackages ["a", "b"] (fun _ => none) [1, 0]).map FetchResult.name).Perm
      ["a", "b"] := by
  have h := downloadAllPackages_one_result_per_input ["a", "b"] (fun _ => none) [1, 0]
    (by decide) (fun i r h => nomatch h)
  exact ⟨h.1, h.2.1⟩

/-- C2: when the download response declares a positive content length L
and the number of bytes written differs from L, `download_package` returns
failed/incomplete_download, the partially written file is deleted from the
output directory, and the package is not added to the downloaded set. -/
theorem downloadPackage_incomplete_download
    (o : PkgOracle) (packageName u : String) (st : DState) (resp : DlResp) (L : Nat)
    (hskip : lowerStr packageName ∉ st.downloadedPackages)
    (hurl : getPackageDownloadUrl o.jsonResp o.simpleResp = some u)
    (hdl : o.dl = .ok resp)
    (hst : resp.status < 400)
    (hlen : resp.contentLength = some L) (hpos : 0 < L)
    (hmis : (writeChunks resp.chunks).length ≠ L) :
    (downloadPackage o packageName st).1 =
      { name := packageName, status := "failed", reason := some "incomplete_download" } ∧
    fsLookup (downloadPackage o packageName st).2.files (basename (normalizeUrl u)) = none ∧
    (downloadPackage o packageName st).2.downloadedPackages = st.downloadedPackages := by
  have hnot : ¬ 400 ≤ resp.status := by omega
  have hcond : 0 < resp.contentLength.getD 0 ∧
      (writeChunks resp.chunks).length ≠ resp.contentLength.getD 0 := by
    rw [hlen]
    exact ⟨hpos, hmis⟩
  simp only [downloadPackage, hurl, hdl, if_neg hskip, if_neg hnot, if_pos hcond]
  exact ⟨trivial, fsLookup_fsRemove _ _, trivial⟩

/-- C2 witness: a stream of 50 bytes against a declared length of 200 is
rejected as incomplete, leaves no file behind, and leaves the downloaded
set unchanged. -/
theorem downloadPackage_incomplete_download_witness :
    (downloadPackage
      { jsonResp := .ok ⟨200, some ⟨"1.0",
          [("1.0", [⟨"sdist", "https://files.pythonhosted.org/p/g-1.0.tar.gz"⟩])]⟩⟩
        simpleResp := .ok ⟨200, []⟩
        dl := .ok ⟨200, some 200, [List.replicate 50 7]⟩ }
      "gamma" ⟨[], []⟩).1 =
      { name := "gamma", status := "failed", reason := some "incomplete_download" } ∧
    fsLookup (downloadPackage
      { jsonResp := .ok ⟨200, some ⟨"1.0",
          [("1.0", [⟨"sdist", "https://files.pythonhosted.org/p/g-1.0.tar.gz"⟩])]⟩⟩
        simpleResp := .ok ⟨200, []⟩
        dl := .ok ⟨200, some 200, [List.replicate 50 7]⟩ }
      "gamma" ⟨[], []⟩).2.files
      (basename (normalizeUrl "https://files.pythonhosted.org/p/g-1.0.tar.gz")) = none ∧
    (downloadPackage
      { jsonResp := .ok ⟨200, some ⟨"1.0",
          [("1.0", [⟨"sdist", "https://files.pythonhosted.org/p/g-1.0.tar.gz"⟩])]⟩⟩
        simpleResp := .ok ⟨200, []⟩
        dl := .ok ⟨200, some 200, [List.replicate 50 7]⟩ }
      "gamma" ⟨[], []⟩).2.downloadedPackages = [] :=
  downloadPackage_incomplete_download _ "gamma"
    "https://files.pythonhosted.org/p/g-1.0.tar.gz" ⟨[], []⟩
    ⟨200, some 200, [List.replicate 50 7]⟩ 200
    (by decide) (by decide) rfl (by decide) rfl (by decide) (by decide)

/-- C10: when the download response declares no content length (header
absent, modelled `none`, or declaring 0), `download_package` performs no
byte-count verification: whatever arrived is kept, the result is success
with the written byte count as size, the truncated file stays in the
output directory, and the package is recorded as downloaded. -/
theorem downloadPackage_no_declared_length
    (o : PkgOracle) (packageName u : String) (st : DState) (resp : DlResp)
    (hskip : lowerStr packageName ∉ st.downloadedPackages)
    (hurl : getPackageDownloadUrl o.jsonResp o.simpleResp = some u)
    (hdl : o.dl = .ok resp)
    (hst : resp.status < 400)
    (hlen : resp.contentLength.getD 0 = 0) :
    (downloadPackage o packageName st).1 =
      { name := packageName, status := "success",
        filename := some (basename (normalizeUrl u)),
        size := some (writeChunks resp.chunks).length,
        url := some (normalizeUrl u) } ∧
    fsLookup (downloadPackage o packageName st).2.files (basename (normalizeUrl u)) =
      some (writeChunks resp.chunks) ∧
    lowerStr packageName ∈ (downloadPackage o packageName st).2.downloadedPackages := by
  have hnot : ¬ 400 ≤ resp.status := by omega
  have hcond : ¬ (0 < resp.contentLength.getD 0 ∧
      (writeChunks resp.chunks).length ≠ resp.contentLength.getD 0) := by
    rw [hlen]
    simp
  simp only [downloadPackage, hurl, hdl, if_neg hskip, if_neg hnot, if_neg hcond]
  exact ⟨trivial, fsLookup_fsWrite _ _ _, List.mem_insert_iff.mpr (Or.inl rfl)⟩

/-- C10 witness: a declared-length-free stream of 2 bytes is recorded as a
success of size 2, the file is present, and the package is in the
downloaded set. -/
theorem downloadPackage_no_declared_length_witness :
    (downloadPackage
      { jsonResp := .ok ⟨200, some ⟨"1.0",
          [("1.0", [⟨"sdist", "https://files.pythonhosted.org/p/t-1.0.tar.gz"⟩])]⟩⟩
        simpleResp := .ok ⟨200, []⟩
        dl := .ok ⟨200, none, [[4, 2]]⟩ }
      "tpkg" ⟨[], []⟩).1 =
      { name := "tpkg", status := "success",
        filename := some (basename (normalizeUrl "https://files.pythonhosted.org/p/t-1.0.tar.gz")),
        size := some (writeChunks [[4, 2]]).length,
        url := some (normalizeUrl "https://files.pythonhosted.org/p/t-1.0.tar.gz") } ∧
    fsLookup (downloadPackage
      { jsonResp := .ok ⟨200, some ⟨"1.0",
          [("1.0", [⟨"sdist", "https://files.pythonhosted.org/p/t-1.0.tar.gz"⟩])]⟩⟩
        simpleResp := .ok ⟨200, []⟩
        dl := .ok ⟨200, none, [[4, 2]]⟩ }
      "tpkg" ⟨[], []⟩).2.files
      (basename (normalizeUrl "https://files.pythonhosted.org/p/t-1.0.tar.gz")) =
      some (writeChunks [[4, 2]]) ∧
    lowerStr "tpkg" ∈ (downloadPackage
      { jsonResp := .ok ⟨200, some ⟨"1.0",
          [("1.0", [⟨"sdist", "https://files.pythonhosted.org/p/t-1.0.tar.gz"⟩])]⟩⟩
        simpleResp := .ok ⟨200, []⟩
        dl := .ok ⟨200, none, [[4, 2]]⟩ }
      "tpkg" ⟨[], []⟩).2.downloadedPackages :=
  downloadPackage_no_declared_length _ "tpkg"
    "https://files.pythonhosted.org/p/t-1.0.tar.gz" ⟨[], []⟩
    ⟨200, none, [[4, 2]]⟩
    (by decide) (by decide) rfl (by decide) rfl

/-- C7 counterexample: for a package whose metadata lookup returns 404
under both strategies, the terminal result reason is no_download_url, not
the not_found reason the claim demands; indeed nothing in the code ever
produces a not_found reason. -/
theorem downloadPackage_both404_not_found_counterexample :
    (downloadPackage
      { jsonResp := .ok ⟨404, none⟩, simpleResp := .ok ⟨404, []⟩,
        dl := .ok ⟨200, none, []⟩ }
      "beta" ⟨[], []⟩).1.status = "failed" ∧
    (downloadPackage
      { jsonResp := .ok ⟨404, none⟩, simpleResp := .ok ⟨404, []⟩,
        dl := .ok ⟨200, none, []⟩ }
      "beta" ⟨[], []⟩).1.reason = some "no_download_url" ∧
    (downloadPackage
      { jsonResp := .ok ⟨404, none⟩, simpleResp := .ok ⟨404, []⟩,
        dl := .ok ⟨200, none, []⟩ }
      "beta" ⟨[], []⟩).1.reason ≠ some "not_found" := by
  decide

/-- C7 amended: for every package whose metadata lookup returns HTTP 404
under both resolution strategies, the terminal fetch result is
status=failed with reason=no_download_url (the code folds the 404 of both
strategies into a missing URL; no fetch result ever carries a not_found
reason), and the state is unchanged. -/
theorem downloadPackage_both404_no_download_url
    (o : PkgOracle) (packageName : String) (st : DState)
    (bj : Option JsonMeta) (hrefs : List String)
    (hj : o.jsonResp = .ok ⟨404, bj⟩) (hsim : o.simpleResp = .ok ⟨404, hrefs⟩)
    (hskip : lowerStr packageName ∉ st.downloadedPackages) :
    (downloadPackage o packageName st).1 =
      { name := packageName, status := "failed", reason := some "no_download_url" } ∧
    (downloadPackage o packageName st).2 = st := by
  have hurl : getPackageDownloadUrl o.jsonResp o.simpleResp = none := by
    rw [hj, hsim]
    rfl
  simp only [downloadPackage, hurl, if_neg hskip]
  exact ⟨trivial, trivial⟩

/-- C7 witness: the amended terminal result at a concrete double-404
package. -/
theorem downloadPackage_both404_no_download_url_witness :
    (downloadPackage
      { jsonResp := .ok ⟨404, some ⟨"1.0", []⟩⟩, simpleResp := .ok ⟨404, ["x.whl"]⟩,
        dl := .ok ⟨200, none, []⟩ }
      "beta2" ⟨["other"], []⟩).1 =
      { name := "beta2", status := "failed", reason := some "no_download_url" } ∧
    (downloadPackage
      { jsonResp := .ok ⟨404, some ⟨"1.0", []⟩⟩, simpleResp := .ok ⟨404, ["x.whl"]⟩,
        dl := .ok ⟨200, none, []⟩ }
      "beta2" ⟨["other"], []⟩).2 = ⟨["other"], []⟩ :=
  downloadPackage_both404_no_download_url _ "beta2" ⟨["other"], []⟩
    (some ⟨"1.0", []⟩) ["x.whl"] rfl rfl (by decide)

/-- C5 counterexample: two distinct packages whose resolved URLs share the
literal basename pkg.tar.gz: both fetches succeed, yet the final output
directory holds a single file containing the bytes of the second download — no
numeric suffix is ever appended and the first file is overwritten. -/
theorem downloadPackage_collision_counterexample :
    (downloadPackage
      { jsonResp := .ok ⟨200, some ⟨"1.0",
          [("1.0", [⟨"sdist", "https://files.pythonhosted.org/a/pkg.tar.gz"⟩])]⟩⟩
        simpleResp := .ok ⟨200, []⟩, dl := .ok ⟨200, none, [[1]]⟩ }
      "aaa" ⟨[], []⟩).1.status = "success" ∧
    (downloadPackage
      { jsonResp := .ok ⟨200, some ⟨"1.0",
          [("1.0", [⟨"sdist", "https://files.pythonhosted.org/b/pkg.tar.gz"⟩])]⟩⟩
        simpleResp := .ok ⟨200, []⟩, dl := .ok ⟨200, none, [[2]]⟩ }
      "bbb"
      (downloadPackage
        { jsonResp := .ok ⟨200, some ⟨"1.0",
            [("1.0", [⟨"sdist", "https://files.pythonhosted.org/a/pkg.tar.gz"⟩])]⟩⟩
          simpleResp := .ok ⟨200, []⟩, dl := .ok ⟨200, none, [[1]]⟩ }
        "aaa" ⟨[], []⟩).2).1.status = "success" ∧
    (downloadPackage
      { jsonResp := .ok ⟨200, some ⟨"1.0",
          [("1.0", [⟨"sdist", "https://files.pythonhosted.org/b/pkg.tar.gz"⟩])]⟩⟩
        simpleResp := .ok ⟨200, []⟩, dl := .ok ⟨200, none, [[2]]⟩ }
      "bbb"
      (downloadPackage
        { jsonResp := .ok ⟨200, some ⟨"1.0",
            [("1.0", [⟨"sdist", "https://files.pythonhosted.org/a/pkg.tar.gz"⟩])]⟩⟩
          simpleResp := .ok ⟨200, []⟩, dl := .ok ⟨200, none, [[1]]⟩ }
        "aaa" ⟨[], []⟩).2).2.files = [("pkg.tar.gz", [2])] := by
  decide

/-- C5 amended: when two distinct package names resolve to URLs with the
identical literal basename, the code appends no numeric suffix: both
fetches report success, but the second write goes to the same path and
overwrites the first, so the output directory afterwards holds exactly one
file under that name and its content is the bytes of the second download. -/
theorem downloadPackage_collision_overwrites
    (oA oB : PkgOracle) (nameA nameB uA uB : String) (st : DState) (rA rB : DlResp)
    (hA : getPackageDownloadUrl oA.jsonResp oA.simpleResp = some uA)
    (hB : getPackageDownloadUrl oB.jsonResp oB.simpleResp = some uB)
    (hdlA : oA.dl = .ok rA) (hdlB : oB.dl = .ok rB)
    (hstA : rA.status < 400) (hstB : rB.status < 400)
    (hokA : ¬ (0 < rA.contentLength.getD 0 ∧
      (writeChunks rA.chunks).length ≠ rA.contentLength.getD 0))
    (hokB : ¬ (0 < rB.contentLength.getD 0 ∧
      (writeChunks rB.chunks).length ≠ rB.contentLength.getD 0))
    (hskipA : lowerStr nameA ∉ st.downloadedPackages)
    (hskipB : lowerStr nameB ∉ (downloadPackage oA nameA st).2.downloadedPackages)
    (hcol : basename (normalizeUrl uA) = basename (normalizeUrl uB)) :
    (downloadPackage oA nameA st).1.status = "success" ∧
    (downloadPackage oB nameB (downloadPackage oA nameA st).2).1.status = "success" ∧
    fsLookup (downloadPackage oB nameB (downloadPackage oA nameA st).2).2.files
      (basename (normalizeUrl uA)) = some (writeChunks rB.chunks) ∧
    ((downloadPackage oB nameB (downloadPackage oA nameA st).2).2.files.filter
      fun p => p.1 == basename (normalizeUrl uA)).length = 1 := by
  have hnA : ¬ 400 ≤ rA.status := by omega
  have hnB : ¬ 400 ≤ rB.status := by omega
  have eA : downloadPackage oA nameA st =
      ({ name := nameA, status := "success",
         filename := some (basename (normalizeUrl uA)),
         size := some (writeChunks rA.chunks).length, url := some (normalizeUrl uA) },
       { downloadedPackages := st.downloadedPackages.insert (lowerStr nameA),
         files := fsWrite st.files (basename (normalizeUrl uA)) (writeChunks rA.chunks) }) := by
    simp only [downloadPackage, hA, hdlA, if_neg hskipA, if_neg hnA, if_neg hokA]
  have eB : ∀ st1 : DState, lowerStr nameB ∉ st1.downloadedPackages →
      downloadPackage oB nameB st1 =
      ({ name := nameB, status := "success",
         filename := some (basename (normalizeUrl uB)),
         size := some (writeChunks rB.chunks).length, url := some (normalizeUrl uB) },
       { downloadedPackages := st1.downloadedPackages.insert (lowerStr nameB),
         files := fsWrite st1.files (basename (normalizeUrl uB)) (writeChunks rB.chunks) }) := by
    intro st1 hskip1
    simp only [downloadPackage, hB, hdlB, if_neg hskip1, if_neg hnB, if_neg hokB]
  refine ⟨?_, ?_, ?_, ?_⟩
  · rw [eA]
  · rw [eB _ hskipB]
  · rw [eB _ hskipB, hcol]
    exact fsLookup_fsWrite _ _ _
  · rw [eB _ hskipB, hcol]
    exact fsWrite_filter_length _ _ _

/-- C5 amended witness: the overwrite conclusion at the concrete colliding
pair of packages. -/
theorem downloadPackage_collision_overwrites_witness :
    (downloadPackage
      { jsonResp := .ok ⟨200, some ⟨"2.0",
          [("2.0", [⟨"sdist", "https://files.pythonhosted.org/c/dup.zip"⟩])]⟩⟩
        simpleResp := .ok ⟨200, []⟩, dl := .ok ⟨200, some 1, [[5]]⟩ }
      "ccc" ⟨[], []⟩).1.status = "success" ∧
    (downloadPackage
      { jsonResp := .ok ⟨200, some ⟨"2.0",
          [("2.0", [⟨"sdist", "https://files.pythonhosted.org/d/dup.zip"⟩])]⟩⟩
        simpleResp := .ok ⟨200, []⟩, dl := .ok ⟨200, some 1, [[6]]⟩ }
      "ddd"
      (downloadPackage
        { jsonResp := .ok ⟨200, some ⟨"2.0",
            [("2.0", [⟨"sdist", "https://files.pythonhosted.org/c/dup.zip"⟩])]⟩⟩
          simpleResp := .ok ⟨200, []⟩, dl := .ok ⟨200, some 1, [[5]]⟩ }
        "ccc" ⟨[], []⟩).2).1.status = "success" ∧
    fsLookup (downloadPackage
      { jsonResp := .ok ⟨200, some ⟨"2.0",
          [("2.0", [⟨"sdist", "https://files.pythonhosted.org/d/dup.zip"⟩])]⟩⟩
        simpleResp := .ok ⟨200, []⟩, dl := .ok ⟨200, some 1, [[6]]⟩ }
      "ddd"
      (downloadPackage
        { jsonResp := .ok ⟨200, some ⟨"2.0",
            [("2.0", [⟨"sdist", "https://files.pythonhosted.org/c/dup.zip"⟩])]⟩⟩
          simpleResp := .ok ⟨200, []⟩, dl := .ok ⟨200, some 1, [[5]]⟩ }
        "ccc" ⟨[], []⟩).2).2.files
      (basename (normalizeUrl "https://files.pythonhosted.org/c/dup.zip")) =
      some (writeChunks [[6]]) ∧
    ((downloadPackage
      { jsonResp := .ok ⟨200, some ⟨"2.0",
          [("2.0", [⟨"sdist", "https://files.pythonhosted.org/d/dup.zip"⟩])]⟩⟩
        simpleResp := .ok ⟨200, []⟩, dl := .ok ⟨200, some 1, [[6]]⟩ }
      "ddd"
      (downloadPackage
        { jsonResp := .ok ⟨200, some ⟨"2.0",
            [("2.0", [⟨"sdist", "https://files.pythonhosted.org/c/dup.zip"⟩])]⟩⟩
          simpleResp := .ok ⟨200, []⟩, dl := .ok ⟨200, some 1, [[5]]⟩ }
        "ccc" ⟨[], []⟩).2).2.files.filter
      fun p => p.1 == basename (normalizeUrl "https://files.pythonhosted.org/c/dup.zip")).length
      = 1 :=
  downloadPackage_collision_overwrites _ _ "ccc" "ddd"
    "https://files.pythonhosted.org/c/dup.zip" "https://files.pythonhosted.org/d/dup.zip"
    ⟨[], []⟩ ⟨200, some 1, [[5]]⟩ ⟨200, some 1, [[6]]⟩
    (by decide) (by decide) rfl rfl (by decide) (by decide) (by decide) (by decide)
    (by decide) (by decide) (by decide)

/-! ## DownloadedSetIndex lemmas -/

theorem mem_loadStep_of_mem (acc : List String) (item : DirEntry) (x : String)
    (hx : x ∈ acc) : x ∈ loadStep acc item := by
  rw [loadStep]
  split
  · split
    · split
      · exact hx
      · exact List.mem_insert_iff.mpr (Or.inr hx)
    · exact hx
  · exact hx

theorem mem_foldl_loadStep (entries : List DirEntry) :
    ∀ (acc : List String) (x : String), x ∈ acc → x ∈ entries.foldl loadStep acc := by
  induction entries with
  | nil => exact fun acc x hx => hx
  | cons a t ih => exact fun acc x hx => ih (loadStep acc a) x (mem_loadStep_of_mem acc a x hx)

theorem key_mem_foldl_loadStep (e : DirEntry) (p : String)
    (hf : e.isFile = true) (hsuf : pathSuffix e.name ∈ [".whl", ".tar.gz", ".zip"])
    (hext : extractPackageName e.name = some p) (hne : p ≠ "") :
    ∀ (entries : List DirEntry) (acc : List String), e ∈ entries →
      lowerStr p ∈ entries.foldl loadStep acc := by
  intro entries
  induction entries with
  | nil => intro acc he; cases he
  | cons a t ih =>
    intro acc he
    rcases List.mem_cons.mp he with rfl | hmem
    · apply mem_foldl_loadStep t
      simp only [loadStep, if_pos (And.intro hf hsuf), hext, if_neg hne]
      exact List.mem_insert_iff.mpr (Or.inl rfl)
    · exact ih _ hmem

/-- C6 counterexample: the first run downloads the package requests as the
file requests-2.28.1.tar.gz and reports success, but rebuilding the index
from that very on-disk filename yields the empty set — pathlib Path.suffix
of the file is .gz, never equal to the .tar.gz entry of the membership
list — so the second run against the same directory resolves and fetches
again (status success), not the skipped/already_downloaded the claim
demands. -/
theorem loadExistingPackages_targz_counterexample :
    (downloadPackage
      { jsonResp := .ok ⟨200, some ⟨"2.28.1",
          [("2.28.1", [⟨"sdist", "https://files.pythonhosted.org/r/requests-2.28.1.tar.gz"⟩])]⟩⟩
        simpleResp := .ok ⟨200, []⟩, dl := .ok ⟨200, some 1, [[9]]⟩ }
      "requests" ⟨[], []⟩).1.status = "success" ∧
    (downloadPackage
      { jsonResp := .ok ⟨200, some ⟨"2.28.1",
          [("2.28.1", [⟨"sdist", "https://files.pythonhosted.org/r/requests-2.28.1.tar.gz"⟩])]⟩⟩
        simpleResp := .ok ⟨200, []⟩, dl := .ok ⟨200, some 1, [[9]]⟩ }
      "requests" ⟨[], []⟩).1.filename = some "requests-2.28.1.tar.gz" ∧
    loadExistingPackages [⟨"requests-2.28.1.tar.gz", true⟩] = [] ∧
    (downloadPackage
      { jsonResp := .ok ⟨200, some ⟨"2.28.1",
          [("2.28.1", [⟨"sdist", "https://files.pythonhosted.org/r/requests-2.28.1.tar.gz"⟩])]⟩⟩
        simpleResp := .ok ⟨200, []⟩, dl := .ok ⟨200, some 1, [[9]]⟩ }
      "requests"
      ⟨loadExistingPackages [⟨"requests-2.28.1.tar.gz", true⟩],
       [("requests-2.28.1.tar.gz", [9])]⟩).1.status ≠ "skipped" := by
  decide

/-- C6 amended: re-running skips a previously downloaded package exactly
when the on-disk artifact filename is recognized by the rebuilt index:
its final Path.suffix is literally one of .whl, .tar.gz, .zip (which a
.tar.gz artifact never satisfies, its suffix being .gz), and the first
dash-separated token of the stripped filename lower-cases to the lowered
input name; under those conditions the second run returns
skipped/already_downloaded. -/
theorem downloadPackage_rerun_skips_recognized
    (entries : List DirEntry) (e : DirEntry) (packageName p : String)
    (o : PkgOracle) (fs : Fs)
    (he : e ∈ entries) (hf : e.isFile = true)
    (hsuf : pathSuffix e.name ∈ [".whl", ".tar.gz", ".zip"])
    (hext : extractPackageName e.name = some p) (hne : p ≠ "")
    (hkey : lowerStr p = lowerStr packageName) :
    (downloadPackage o packageName ⟨loadExistingPackages entries, fs⟩).1 =
      { name := packageName, status := "skipped", reason := some "already_downloaded" } := by
  have hmem : lowerStr packageName ∈ loadExistingPackages entries := by
    rw [← hkey]
    exact key_mem_foldl_loadStep e p hf hsuf hext hne entries [] he
  simp only [downloadPackage, if_pos hmem]

/-- C6 amended witness: a .zip artifact of the first run makes the second
run skip the package, case-insensitively. -/
theorem downloadPackage_rerun_skips_recognized_witness :
    (downloadPackage
      { jsonResp := .ok ⟨404, none⟩, simpleResp := .ok ⟨404, []⟩,
        dl := .ok ⟨200, none, []⟩ }
      "Requests" ⟨loadExistingPackages [⟨"requests-2.28.1.zip", true⟩], []⟩).1 =
      { name := "Requests", status := "skipped", reason := some "already_downloaded" } :=
  downloadPackage_rerun_skips_recognized [⟨"requests-2.28.1.zip", true⟩]
    ⟨"requests-2.28.1.zip", true⟩ "Requests" "requests" _ []
    (by decide) rfl (by decide) (by decide) (by decide) (by decide)

/-! ## Resolution-fault lemmas -/

/-- Well-formedness of a metadata response: every declared release-file
URL is a nonempty string (PyPI never serves empty URL fields); faults and
missing bodies impose no condition. -/
def urlsNonempty : ReqOutcome JsonResp → Prop
  | .ok resp =>
    match resp.body with
    | some meta => ∀ pr ∈ meta.releases, ∀ f ∈ pr.2, f.url ≠ ""
    | none => True
  | _ => True

theorem getPackageInfoFromJson_some_ne_empty {j : ReqOutcome JsonResp} {u : String}
    (hw : urlsNonempty j) (h : getPackageInfoFromJson j = some u) : u ≠ "" := by
  cases j with
  | timeoutExn => simp [getPackageInfoFromJson, getPackageInfoFromJsonE] at h
  | requestExn => simp [getPackageInfoFromJson, getPackageInfoFromJsonE] at h
  | otherExn m => simp [getPackageInfoFromJson, getPackageInfoFromJsonE] at h
  | ok resp =>
    by_cases h404 : resp.status = 404
    · simp [getPackageInfoFromJson, getPackageInfoFromJsonE, h404] at h
    · by_cases h400 : 400 ≤ resp.status
      · simp [getPackageInfoFromJson, getPackageInfoFromJsonE, h404, h400] at h
      · cases hb : resp.body with
        | none => simp [getPackageInfoFromJson, getPackageInfoFromJsonE, h404, h400, hb] at h
        | some meta =>
          cases hlook : lookupRelease meta.version meta.releases with
          | none =>
            simp [getPackageInfoFromJson, getPackageInfoFromJsonE, h404, h400, hb, hlook] at h
          | some files =>
            have hsel : selectReleaseFile files = some u := by
              simpa [getPackageInfoFromJson, getPackageInfoFromJsonE, h404, h400, hb, hlook]
                using h
            obtain ⟨f, hfmem, hfurl⟩ := selectReleaseFile_mem hsel
            obtain ⟨k, hk⟩ := lookupRelease_mem hlook
            have hw2 : ∀ pr ∈ meta.releases, ∀ g ∈ pr.2, g.url ≠ "" := by
              simpa [urlsNonempty, hb] using hw
            rw [← hfurl]
            exact hw2 (k, files) hk f hfmem

/-- C8: URL resolution never lets an exception escape — every error the
strategy bodies can raise is caught and reduced to no result: a 404
response, a transport failure and a malformed metadata document each
reduce to none for either strategy — and, for well-formed metadata (its
URL fields nonempty, as the registry serves them), the HTML fallback
strategy is consulted if and only if the structured JSON strategy yields
none. -/
theorem getPackageDownloadUrl_never_raises :
    (∀ j e, getPackageInfoFromJsonE j = .error e → getPackageInfoFromJson j = none) ∧
    (∀ s e, getPackageDownloadUrlFallbackE s = .error e →
      getPackageDownloadUrlFallback s = none) ∧
    (∀ b, getPackageInfoFromJson (.ok ⟨404, b⟩) = none) ∧
    (getPackageInfoFromJson .requestExn = none) ∧
    (∀ m, getPackageInfoFromJson (.otherExn m) = none) ∧
    (∀ s, s < 400 → getPackageInfoFromJson (.ok ⟨s, none⟩) = none) ∧
    (∀ hrefs, getPackageDownloadUrlFallback (.ok ⟨404, hrefs⟩) = none) ∧
    (getPackageDownloadUrlFallback .requestExn = none) ∧
    (∀ j s, urlsNonempty j →
      (((getPackageDownloadUrlInstr j s).2 = true) ↔ getPackageInfoFromJson j = none)) := by
  refine ⟨?_, ?_, ?_, ?_, ?_, ?_, ?_, ?_, ?_⟩
  · intro j e h
    rw [getPackageInfoFromJson, h]
  · intro s e h
    rw [getPackageDownloadUrlFallback, h]
  · intro b
    rfl
  · rfl
  · intro m
    rfl
  · intro s hs
    simp only [getPackageInfoFromJson, getPackageInfoFromJsonE,
      if_neg (by omega : ¬ s = 404), if_neg (by omega : ¬ 400 ≤ s)]
  · intro hrefs
    rfl
  · rfl
  · intro j s hw
    cases hjson : getPackageInfoFromJson j with
    | none =>
      refine iff_of_true ?_ rfl
      simp only [getPackageDownloadUrlInstr, hjson]
      split
      · next h => exact absurd h (by decide)
      · split <;> rfl
    | some u =>
      have hne := getPackageInfoFromJson_some_ne_empty hw hjson
      have ht : (u != "") = true := by
        simpa [bne_iff_ne] using hne
      simp [getPackageDownloadUrlInstr, hjson, pyTruthy, ht]

/-- C8 witness: at a concrete 404 metadata response the fallback is
consulted, by the iff of the theorem. -/
theorem getPackageDownloadUrl_never_raises_witness :
    (getPackageDownloadUrlInstr (.ok ⟨404, none⟩)
      (.ok ⟨200, ["https://h/y-1.tar.gz"]⟩)).2 = true :=
  (getPackageDownloadUrl_never_raises.2.2.2.2.2.2.2.2 (.ok ⟨404, none⟩)
    (.ok ⟨200, ["https://h/y-1.tar.gz"]⟩) trivial).mpr (by decide)
